import Mathlib

/-
Verification of the natural-language specification of edgeRec's DIN model
(`model/din/din.go`) against a shallow embedding of that file.

Tensors of the gorgonia computation graph are embedded as `GTensor`: a shape
(list of dimensions) together with a total row-major flat data function
`Nat → α`.  The graph is define-by-run, so graph construction followed by
evaluation is embedded as direct evaluation of the corresponding tensor
operations.  Machine floats (`float64`) are embedded as elements of a linear
ordered field; the parts of the pipeline that need the transcendental
sigmoid are instantiated at `ℝ`, everything else stays generic so that it is
executable over `ℚ`.
-/

/-- A gorgonia tensor value: a shape together with a total row-major flat
data function.  Out-of-range indices carry junk values that no theorem
depends on. -/
structure GTensor (α : Type) where
  shape : List Nat
  data : Nat → α

variable {α : Type} [LinearOrderedField α]

/-- Number of elements of a tensor, from its shape. -/
def GTensor.size (t : GTensor α) : Nat := t.shape.prod

/-- Gorgonia's `t.Shape()[i]`, with 0 for a missing axis. -/
def dimAt (t : GTensor α) (i : Nat) : Nat := t.shape.getD i 0

/-- Embedding of `G.Reshape`: only the shape changes, the row-major data is unchanged. -/
def reshapeT (t : GTensor α) (s : List Nat) : GTensor α := ⟨s, t.data⟩

/-- Embedding of `G.Slice(t, G.S(i))`: drop the leading axis, selecting block `i`. -/
def sliceRowT (t : GTensor α) (i : Nat) : GTensor α :=
  ⟨t.shape.drop 1, fun k => t.data (i * (t.shape.drop 1).prod + k)⟩

/-- Embedding of `G.Slice(t, nil, G.S(i))` on a rank-3 tensor `[B, S, D]`: select index
`i` of the middle axis, giving `[B, D]`. -/
def sliceMidT (t : GTensor α) (i : Nat) : GTensor α :=
  ⟨[dimAt t 0, dimAt t 2],
    fun k => t.data ((k / dimAt t 2) * (dimAt t 1 * dimAt t 2) + i * dimAt t 2 + k % dimAt t 2)⟩

/-- Embedding of `G.OuterProd` of two vectors `[m]` and `[n]`, giving `[m, n]`. -/
def outerProdT (u v : GTensor α) : GTensor α :=
  ⟨[dimAt u 0, dimAt v 0], fun k => u.data (k / dimAt v 0) * v.data (k % dimAt v 0)⟩

/-- Binary `G.Concat(0, ·, ·)` of two vectors. -/
def vcat2 (a b : GTensor α) : GTensor α :=
  ⟨[dimAt a 0 + dimAt b 0],
    fun k => if k < dimAt a 0 then a.data k else b.data (k - dimAt a 0)⟩

/-- n-ary `G.Concat(0, vs...)` of vectors, as iterated binary concatenation. -/
def vcatAll : List (GTensor α) → GTensor α
  | [] => ⟨[0], fun _ => 0⟩
  | v :: vs => vcat2 v (vcatAll vs)

/-- Binary `G.Concat(1, ·, ·)` of two matrices `[B, wa]` and `[B, wb]`,
giving `[B, wa + wb]`. -/
def hcat (a b : GTensor α) : GTensor α :=
  ⟨[dimAt a 0, dimAt a 1 + dimAt b 1],
    fun k =>
      if k % (dimAt a 1 + dimAt b 1) < dimAt a 1 then
        a.data ((k / (dimAt a 1 + dimAt b 1)) * dimAt a 1 + k % (dimAt a 1 + dimAt b 1))
      else
        b.data ((k / (dimAt a 1 + dimAt b 1)) * dimAt b 1 +
          (k % (dimAt a 1 + dimAt b 1) - dimAt a 1))⟩

/-- Embedding of `G.Mul` of matrices `[m, k]` and `[k, n]`, giving `[m, n]`. -/
def matMulT (a b : GTensor α) : GTensor α :=
  ⟨[dimAt a 0, dimAt b 1],
    fun idx => ∑ t ∈ Finset.range (dimAt a 1),
      a.data ((idx / dimAt b 1) * dimAt a 1 + t) * b.data (t * dimAt b 1 + idx % dimAt b 1)⟩

/-- Embedding of `G.Rectify`: elementwise ReLU. -/
def rectifyT (t : GTensor α) : GTensor α := ⟨t.shape, fun k => max 0 (t.data k)⟩

/-- Embedding of `G.LeakyRelu(x, alpha)`: elementwise `x` for `x ≥ 0`, `alpha * x` below 0. -/
def leakyReluT (alpha : α) (t : GTensor α) : GTensor α :=
  ⟨t.shape, fun k => if t.data k < 0 then alpha * t.data k else t.data k⟩

/-- Embedding of `G.Add` of two equally shaped tensors. -/
def addT (a b : GTensor α) : GTensor α := ⟨a.shape, fun k => a.data k + b.data k⟩

/-- Embedding of `G.Sub` of two equally shaped tensors. -/
def subT (a b : GTensor α) : GTensor α := ⟨a.shape, fun k => a.data k - b.data k⟩

/-- Embedding of `G.Square`: elementwise square. -/
def squareT (t : GTensor α) : GTensor α := ⟨t.shape, fun k => t.data k * t.data k⟩

/-- Embedding of `G.Mean` with no axes: the scalar mean of all elements. -/
def meanT (t : GTensor α) : GTensor α :=
  ⟨[], fun _ => (∑ k ∈ Finset.range t.size, t.data k) / (t.size : α)⟩

/-- Embedding of `G.BroadcastHadamardProd(a, b, nil, [1])` with `a : [B, D]` and
`b : [B, 1]`: the scalar in each row of `b` is broadcast across axis 1. -/
def broadcastHP1 (a b : GTensor α) : GTensor α :=
  ⟨a.shape, fun k => a.data k * b.data (k / dimAt a 1)⟩

/-- Embedding of `G.NewTensor(..., G.WithShape(s...), G.WithInit(G.Zeroes()))`. -/
def zerosT (s : List Nat) : GTensor α := ⟨s, fun _ => 0⟩

/-- Modelled from the backend (gorgonia `G.Dropout`, external to this
repository): the identity when the drop probability is 0, otherwise an
elementwise random keep mask (one uniform sample `r k` per element) with
rescaling of the kept elements. -/
def dropoutT (p : α) (r : Nat → α) (t : GTensor α) : GTensor α :=
  if p = 0 then t
  else ⟨t.shape, fun k => if p < r k then t.data k / (1 - p) else 0⟩

/-- Lines 160–173 of `din.go`: the per-example outer products.  For each batch
index `i`, slice row `i` of the `[B, S·D]` behavior matrix and row `i` of
the `[B, iFeatureDim]` item matrix, take their outer product, flatten it;
then concatenate all the flat vectors along axis 0 and reshape to
`[B, S·D·iFeatureDim]`.  `iFeatureDim` is read from the item tensor's
shape as in line 154. -/
def dinOutProducts (ubMatrix xItemFeature : GTensor α)
    (batchSize uBehaviorSize uBehaviorDim : Nat) : GTensor α :=
  let iFeatureDim := dimAt xItemFeature 1
  let outProdVecs := (List.range batchSize).map (fun i =>
    reshapeT (outerProdT (sliceRowT ubMatrix i) (sliceRowT xItemFeature i))
      [uBehaviorSize * uBehaviorDim * iFeatureDim])
  reshapeT (vcatAll outProdVecs) [batchSize, uBehaviorSize * uBehaviorDim * iFeatureDim]

/-- All vectors in `vs` have length `L`; then element `k` of block `b` of
their axis-0 concatenation is element `k` of the `b`-th vector. -/
theorem vcatAll_block (vs : List (GTensor α)) (L : Nat)
    (hL : ∀ v ∈ vs, dimAt v 0 = L) :
    ∀ b k, b < vs.length → k < L →
      (vcatAll vs).data (b * L + k) = (vs.getD b (zerosT [0])).data k := by
  induction vs with
  | nil => intro b k hb _; exact absurd hb (Nat.not_lt_zero b)
  | cons v vs ih =>
    intro b k hb hk
    have hv : dimAt v 0 = L := hL v (List.mem_cons_self v vs)
    cases b with
    | zero =>
      simp only [vcatAll, vcat2, Nat.zero_mul, Nat.zero_add, List.getD_cons_zero]
      rw [if_pos (by omega)]
    | succ b =>
      have hge : ¬ ((b + 1) * L + k < dimAt v 0) := by
        rw [hv]; push_neg; calc L = 1 * L := (Nat.one_mul L).symm
          _ ≤ (b + 1) * L := Nat.mul_le_mul_right L (by omega)
          _ ≤ (b + 1) * L + k := Nat.le_add_right _ _
      simp only [vcatAll, vcat2, List.getD_cons_succ]
      rw [if_neg hge, hv]
      have harith : (b + 1) * L + k - L = b * L + k := by
        rw [Nat.succ_mul]; omega
      rw [harith]
      exact ih (fun w hw => hL w (List.mem_cons_of_mem v hw)) b k
        (Nat.lt_of_succ_lt_succ hb) hk

/-- Claim C2: in the DIN forward pass, for every example `b` in the batch
taken independently, row `b` of the interaction tensor equals the flattened
outer (Kronecker) product of that example's full flattened behavior vector
`[S·D]` with its item vector `[I]` (element `k` is `ub[b][k / I] *
item[b][k mod I]`, which depends only on row `b` of either input, so no
batch entries are mixed); in particular for behavior vector `[1, 2]` and
item vector `[3, 4]` the flattened result is `[3, 4, 6, 8]`. -/
theorem dinOutProducts_kron :
    (∀ (ubMatrix xItemFeature : GTensor α) (B S D I b k : Nat),
      ubMatrix.shape = [B, S * D] → xItemFeature.shape = [B, I] →
      b < B → k < S * D * I →
      (dinOutProducts ubMatrix xItemFeature B S D).data (b * (S * D * I) + k) =
        ubMatrix.data (b * (S * D) + k / I) * xItemFeature.data (b * I + k % I)) ∧
    ((dinOutProducts (⟨[1, 2], fun n => [(1 : ℚ), 2].getD n 0⟩)
        (⟨[1, 2], fun n => [(3 : ℚ), 4].getD n 0⟩) 1 1 2).data 0 = 3 ∧
     (dinOutProducts (⟨[1, 2], fun n => [(1 : ℚ), 2].getD n 0⟩)
        (⟨[1, 2], fun n => [(3 : ℚ), 4].getD n 0⟩) 1 1 2).data 1 = 4 ∧
     (dinOutProducts (⟨[1, 2], fun n => [(1 : ℚ), 2].getD n 0⟩)
        (⟨[1, 2], fun n => [(3 : ℚ), 4].getD n 0⟩) 1 1 2).data 2 = 6 ∧
     (dinOutProducts (⟨[1, 2], fun n => [(1 : ℚ), 2].getD n 0⟩)
        (⟨[1, 2], fun n => [(3 : ℚ), 4].getD n 0⟩) 1 1 2).data 3 = 8) := by
  constructor
  · intro ubMatrix xItemFeature B S D I b k hub hitem hb hk
    have hI : dimAt xItemFeature 1 = I := by simp [dimAt, hitem]
    have hlen : ∀ v ∈ (List.range B).map (fun i =>
        reshapeT (outerProdT (sliceRowT ubMatrix i) (sliceRowT xItemFeature i))
          [S * D * (dimAt xItemFeature 1)]), dimAt v 0 = S * D * I := by
      intro v hv
      rcases List.mem_map.mp hv with ⟨i, _, rfl⟩
      rw [hI]
      simp [dimAt, reshapeT]
    have hblock := vcatAll_block
      ((List.range B).map (fun i =>
        reshapeT (outerProdT (sliceRowT ubMatrix i) (sliceRowT xItemFeature i))
          [S * D * (dimAt xItemFeature 1)]))
      (S * D * I) hlen b k (by simpa using hb) hk
    have hget : ((List.range B).map (fun i =>
        reshapeT (outerProdT (sliceRowT ubMatrix i) (sliceRowT xItemFeature i))
          [S * D * (dimAt xItemFeature 1)])).getD b (zerosT [0]) =
        reshapeT (outerProdT (sliceRowT ubMatrix b) (sliceRowT xItemFeature b))
          [S * D * (dimAt xItemFeature 1)] := by
      rw [List.getD_eq_getElem?_getD, List.getElem?_map, List.getElem?_range hb]
      rfl
    simp only [dinOutProducts, reshapeT, hI] at hblock hget ⊢
    rw [hblock, hget]
    simp only [outerProdT, sliceRowT, dimAt, hub, hitem]
    simp
  · refine ⟨?_, ?_, ?_, ?_⟩ <;>
      simp [dinOutProducts, vcatAll, vcat2, reshapeT, outerProdT, sliceRowT,
        dimAt, zerosT, List.range_succ] <;>
      norm_num

/-- Line 181 of `din.go`: `actConcat = G.Concat(1, ub, outProducts, xItemFeature)`,
as iterated binary concatenation along axis 1. -/
def dinActConcat (ub outProducts xItemFeature : GTensor α) : GTensor α :=
  hcat (hcat ub outProducts) xItemFeature

/-- Lines 176–190 of `din.go`, one iteration of the attention loop for slot `i`:
`ub = xUserBehaviors[:, i, :]`, then
`actOut = BroadcastHadamardProd(ub, Rectify(Mul(Mul(actConcat, att0[i]), att1[i])), nil, [1])`.
Note the code applies `Rectify` to the result of BOTH matrix products. -/
def dinActOutSlot (att0 att1 : Nat → GTensor α)
    (xUserBehaviors outProducts xItemFeature : GTensor α) (i : Nat) : GTensor α :=
  let ub := sliceMidT xUserBehaviors i
  broadcastHP1 ub
    (rectifyT (matMulT (matMulT (dinActConcat ub outProducts xItemFeature) (att0 i)) (att1 i)))

/-- Following the spec's words (for comparison with `dinActOutSlot`, which is
translated from the code): `score = ReLU(actConcat @ Att0[i]) @ Att1[i]`, with
the ReLU applied between the two matrix products, then `actOut_i = ub_i * score`. -/
def dinActOutSlotSpec (att0 att1 : Nat → GTensor α)
    (xUserBehaviors outProducts xItemFeature : GTensor α) (i : Nat) : GTensor α :=
  let ub := sliceMidT xUserBehaviors i
  broadcastHP1 ub
    (matMulT (rectifyT (matMulT (dinActConcat ub outProducts xItemFeature) (att0 i))) (att1 i))

/-- Lines 175–194 of `din.go`: the sum-pooling accumulator.  `dinActOuts ... 0`
is the all-zero `[batchSize, uBehaviorDim]` tensor of line 175; each further
slot adds `actOut_i` (line 193). -/
def dinActOuts (att0 att1 : Nat → GTensor α)
    (xUserBehaviors outProducts xItemFeature : GTensor α)
    (batchSize uBehaviorDim : Nat) : Nat → GTensor α
  | 0 => zerosT [batchSize, uBehaviorDim]
  | i + 1 =>
    addT (dinActOuts att0 att1 xUserBehaviors outProducts xItemFeature batchSize uBehaviorDim i)
      (dinActOutSlot att0 att1 xUserBehaviors outProducts xItemFeature i)

/-- Claim C5: for every behavior sequence length `S ≥ 0` and embedding
dimension `D`, the sum-pooling aggregator starts from an all-zero `[B, D]`
accumulator and adds `actOut_i` for each slot `i < S`, so the result has
shape `[B, D]` regardless of `S` and every entry equals the sum over all
slots of the attention-gated behavior entries. -/
theorem dinActOuts_sumPooling (att0 att1 : Nat → GTensor α)
    (xUserBehaviors outProducts xItemFeature : GTensor α) (B D S : Nat) :
    (dinActOuts att0 att1 xUserBehaviors outProducts xItemFeature B D S).shape = [B, D] ∧
    ∀ k, (dinActOuts att0 att1 xUserBehaviors outProducts xItemFeature B D S).data k =
      ∑ i ∈ Finset.range S,
        (dinActOutSlot att0 att1 xUserBehaviors outProducts xItemFeature i).data k := by
  induction S with
  | zero => exact ⟨rfl, fun k => by simp [dinActOuts, zerosT]⟩
  | succ S ih =>
    refine ⟨?_, fun k => ?_⟩
    · simpa [dinActOuts, addT] using ih.1
    · rw [Finset.sum_range_succ, ← ih.2 k]
      simp [dinActOuts, addT]

/-- Entry `(r, c)` of a matrix product, for an in-range column index. -/
theorem matMulT_entry (a bM : GTensor α) (r c : Nat) (hc : c < dimAt bM 1) :
    (matMulT a bM).data (r * dimAt bM 1 + c) =
      ∑ t ∈ Finset.range (dimAt a 1),
        a.data (r * dimAt a 1 + t) * bM.data (t * dimAt bM 1 + c) := by
  have hn : 0 < dimAt bM 1 := by omega
  simp only [matMulT]
  rw [mul_comm r (dimAt bM 1), Nat.mul_add_div hn, Nat.mul_add_mod,
    Nat.div_eq_of_lt hc, Nat.mod_eq_of_lt hc, Nat.add_zero]

/-- Helper: the entry formula for the attention slot output as the code
computes it: `actOut_i[b, j] = ub_i[b, j] * max 0 ((actConcat @ Att0[i]) @ Att1[i])[b]`. -/
theorem dinActOutSlot_data (att0 att1 : Nat → GTensor α)
    (xUB outP item : GTensor α) (B S D i b j : Nat)
    (hx : xUB.shape = [B, S, D]) (hj : j < D)
    (h1 : dimAt (att1 i) 1 = 1) :
    (dinActOutSlot att0 att1 xUB outP item i).data (b * D + j) =
      xUB.data (b * (S * D) + i * D + j) *
        max 0 (∑ t ∈ Finset.range (dimAt (att0 i) 1),
          (∑ u ∈ Finset.range (D + dimAt outP 1 + dimAt item 1),
            (dinActConcat (sliceMidT xUB i) outP item).data
                (b * (D + dimAt outP 1 + dimAt item 1) + u) *
              (att0 i).data (u * dimAt (att0 i) 1 + t)) *
          (att1 i).data t) := by
  have hD : 0 < D := by omega
  have hub1 : dimAt (sliceMidT xUB i) 1 = D := by simp [sliceMidT, dimAt, hx]
  have hkdiv : (b * D + j) / D = b := by
    rw [mul_comm b D, Nat.mul_add_div hD, Nat.div_eq_of_lt hj, Nat.add_zero]
  have hkmod : (b * D + j) % D = j := by
    rw [mul_comm b D, Nat.mul_add_mod, Nat.mod_eq_of_lt hj]
  have hubdata : (sliceMidT xUB i).data (b * D + j) = xUB.data (b * (S * D) + i * D + j) := by
    simp only [sliceMidT, dimAt, hx]
    norm_num [hkdiv, hkmod]
  have hdimAt_hcat : ∀ a c : GTensor α, dimAt (hcat a c) 1 = dimAt a 1 + dimAt c 1 := by
    intro a c; simp [hcat, dimAt]
  have hAw : dimAt (dinActConcat (sliceMidT xUB i) outP item) 1 =
      D + dimAt outP 1 + dimAt item 1 := by
    show dimAt (hcat (hcat (sliceMidT xUB i) outP) item) 1 = _
    rw [hdimAt_hcat, hdimAt_hcat, hub1]
  have hm1 : dimAt (matMulT (dinActConcat (sliceMidT xUB i) outP item) (att0 i)) 1 =
      dimAt (att0 i) 1 := by simp [matMulT, dimAt]
  -- the outer product with att1 has exactly one column, so row b of the
  -- score tensor sits at flat index b
  have houter : (matMulT (matMulT (dinActConcat (sliceMidT xUB i) outP item) (att0 i))
      (att1 i)).data b =
      ∑ t ∈ Finset.range (dimAt (att0 i) 1),
        (∑ u ∈ Finset.range (D + dimAt outP 1 + dimAt item 1),
          (dinActConcat (sliceMidT xUB i) outP item).data
              (b * (D + dimAt outP 1 + dimAt item 1) + u) *
            (att0 i).data (u * dimAt (att0 i) 1 + t)) *
        (att1 i).data t := by
    have hc0 : 0 < dimAt (att1 i) 1 := by omega
    have h2 := matMulT_entry
      (matMulT (dinActConcat (sliceMidT xUB i) outP item) (att0 i)) (att1 i) b 0 hc0
    rw [h1] at h2
    simp only [Nat.mul_one, Nat.add_zero] at h2
    rw [hm1] at h2
    rw [h2]
    refine Finset.sum_congr rfl (fun t ht => ?_)
    have ht2 : t < dimAt (att0 i) 1 := Finset.mem_range.mp ht
    rw [matMulT_entry _ _ b t ht2, hAw]
  simp only [dinActOutSlot, broadcastHP1, rectifyT, hub1, hkdiv, hubdata, houter]


/-- Helper: the entry formula for the spec's version of the attention slot
output, with the ReLU between the two matrix products. -/
theorem dinActOutSlotSpec_data (att0 att1 : Nat → GTensor α)
    (xUB outP item : GTensor α) (B S D i b j : Nat)
    (hx : xUB.shape = [B, S, D]) (hj : j < D)
    (h1 : dimAt (att1 i) 1 = 1) :
    (dinActOutSlotSpec att0 att1 xUB outP item i).data (b * D + j) =
      xUB.data (b * (S * D) + i * D + j) *
        ∑ t ∈ Finset.range (dimAt (att0 i) 1),
          max 0 (∑ u ∈ Finset.range (D + dimAt outP 1 + dimAt item 1),
            (dinActConcat (sliceMidT xUB i) outP item).data
                (b * (D + dimAt outP 1 + dimAt item 1) + u) *
              (att0 i).data (u * dimAt (att0 i) 1 + t)) *
          (att1 i).data t := by
  have hD : 0 < D := by omega
  have hub1 : dimAt (sliceMidT xUB i) 1 = D := by simp [sliceMidT, dimAt, hx]
  have hkdiv : (b * D + j) / D = b := by
    rw [mul_comm b D, Nat.mul_add_div hD, Nat.div_eq_of_lt hj, Nat.add_zero]
  have hkmod : (b * D + j) % D = j := by
    rw [mul_comm b D, Nat.mul_add_mod, Nat.mod_eq_of_lt hj]
  have hubdata : (sliceMidT xUB i).data (b * D + j) = xUB.data (b * (S * D) + i * D + j) := by
    simp only [sliceMidT, dimAt, hx]
    norm_num [hkdiv, hkmod]
  have hdimAt_hcat : ∀ a c : GTensor α, dimAt (hcat a c) 1 = dimAt a 1 + dimAt c 1 := by
    intro a c; simp [hcat, dimAt]
  have hAw : dimAt (dinActConcat (sliceMidT xUB i) outP item) 1 =
      D + dimAt outP 1 + dimAt item 1 := by
    show dimAt (hcat (hcat (sliceMidT xUB i) outP) item) 1 = _
    rw [hdimAt_hcat, hdimAt_hcat, hub1]
  have hm1 : dimAt (rectifyT (matMulT (dinActConcat (sliceMidT xUB i) outP item) (att0 i))) 1 =
      dimAt (att0 i) 1 := by simp [rectifyT, matMulT, dimAt]
  have houter : (matMulT
      (rectifyT (matMulT (dinActConcat (sliceMidT xUB i) outP item) (att0 i)))
      (att1 i)).data b =
      ∑ t ∈ Finset.range (dimAt (att0 i) 1),
        max 0 (∑ u ∈ Finset.range (D + dimAt outP 1 + dimAt item 1),
          (dinActConcat (sliceMidT xUB i) outP item).data
              (b * (D + dimAt outP 1 + dimAt item 1) + u) *
            (att0 i).data (u * dimAt (att0 i) 1 + t)) *
        (att1 i).data t := by
    have hc0 : 0 < dimAt (att1 i) 1 := by omega
    have h2 := matMulT_entry
      (rectifyT (matMulT (dinActConcat (sliceMidT xUB i) outP item) (att0 i))) (att1 i) b 0 hc0
    rw [h1] at h2
    simp only [Nat.mul_one, Nat.add_zero] at h2
    rw [hm1] at h2
    rw [h2]
    refine Finset.sum_congr rfl (fun t ht => ?_)
    have ht2 : t < dimAt (att0 i) 1 := Finset.mem_range.mp ht
    have hrect : (rectifyT (matMulT (dinActConcat (sliceMidT xUB i) outP item) (att0 i))).data
        (b * dimAt (att0 i) 1 + t) =
        max 0 ((matMulT (dinActConcat (sliceMidT xUB i) outP item) (att0 i)).data
          (b * dimAt (att0 i) 1 + t)) := rfl
    rw [hrect, matMulT_entry _ _ b t ht2, hAw]
  simp only [dinActOutSlotSpec, broadcastHP1, hub1, hkdiv, hubdata, houter]

/-- Claim C1 (amended): for every behavior slot `i`, the per-example
relevance score of the attention unit is
`score = ReLU((actConcat @ Att0[i]) @ Att1[i])` — the ReLU is applied AFTER
both matrix products, not between them — where `actConcat` is the
concatenation `[ub_i, OutProd, item]` along the feature axis, and the slot
output is `actOut_i = ub_i * score` with the scalar score broadcast across
the `D` dimension. -/
theorem din_attention_unit_score (att0 att1 : Nat → GTensor α)
    (xUB outP item : GTensor α) (B S D i b j : Nat)
    (hx : xUB.shape = [B, S, D]) (hj : j < D)
    (h1 : dimAt (att1 i) 1 = 1) :
    (dinActOutSlot att0 att1 xUB outP item i).data (b * D + j) =
      xUB.data (b * (S * D) + i * D + j) *
        max 0 (∑ t ∈ Finset.range (dimAt (att0 i) 1),
          (∑ u ∈ Finset.range (D + dimAt outP 1 + dimAt item 1),
            (dinActConcat (sliceMidT xUB i) outP item).data
                (b * (D + dimAt outP 1 + dimAt item 1) + u) *
              (att0 i).data (u * dimAt (att0 i) 1 + t)) *
          (att1 i).data t) :=
  dinActOutSlot_data att0 att1 xUB outP item B S D i b j hx hj h1

/-- Concrete `[1, 1]` tensor with every entry `1`, used for counterexamples. -/
def cexOnes11 : GTensor ℚ := ⟨[1, 1], fun _ => 1⟩

/-- Concrete `Att0[i]` weight tensor (`[3, 36]`, every entry `-1`). -/
def cexAtt0 : GTensor ℚ := ⟨[3, 36], fun _ => -1⟩

/-- Concrete `Att1[i]` weight tensor (`[36, 1]`, every entry `-1`). -/
def cexAtt1 : GTensor ℚ := ⟨[36, 1], fun _ => -1⟩

/-- Concrete `[1, 1, 1]` reshaped behavior tensor. -/
def cexXUB : GTensor ℚ := reshapeT cexOnes11 [1, 1, 1]

/-- Concrete outer-product tensor for the counterexample inputs. -/
def cexOutP : GTensor ℚ := dinOutProducts cexOnes11 cexOnes11 1 1 1

/-- Claim C1 (counterexample): at the concrete input `B = S = D = 1` with
behavior and item entries `1`, every `Att0[0]` entry `-1` and every
`Att1[0]` entry `-1`, the slot output computed by the code (ReLU after both
matrix products: `1 * max 0 108 = 108`) differs from the value of the
spec's formula `ub * (ReLU(actConcat @ Att0[0]) @ Att1[0])` (which is `0`),
so the claimed equality is false. -/
theorem dinActOutSlot_relu_cex :
    (dinActOutSlot (fun _ => cexAtt0) (fun _ => cexAtt1) cexXUB cexOutP cexOnes11 0).data 0 ≠
    (dinActOutSlotSpec (fun _ => cexAtt0) (fun _ => cexAtt1) cexXUB cexOutP cexOnes11 0).data 0 := by
  have hxsh : cexXUB.shape = [1, 1, 1] := rfl
  have h1 : dimAt ((fun _ => cexAtt1) 0) 1 = 1 := rfl
  have hd1 : dimAt cexOutP 1 = 1 := rfl
  have hd2 : dimAt cexOnes11 1 = 1 := rfl
  have hd3 : dimAt cexAtt0 1 = 36 := rfl
  have hA0 : ∀ x, cexAtt0.data x = -1 := fun _ => rfl
  have hA1 : ∀ x, cexAtt1.data x = -1 := fun _ => rfl
  have hXU : ∀ x, cexXUB.data x = 1 := fun _ => rfl
  have hA : ∀ u, u < 3 → (dinActConcat (sliceMidT cexXUB 0) cexOutP cexOnes11).data u = 1 := by
    intro u hu
    interval_cases u <;>
      norm_num [dinActConcat, hcat, sliceMidT, dimAt, cexXUB, cexOutP, cexOnes11,
        reshapeT, dinOutProducts, vcatAll, vcat2, outerProdT, sliceRowT, zerosT,
        List.range_succ]
  have hinner : ∀ t : ℕ,
      (∑ u ∈ Finset.range 3,
        (dinActConcat (sliceMidT cexXUB 0) cexOutP cexOnes11).data u *
          cexAtt0.data (u * 36 + t)) = -3 := by
    intro t
    rw [Finset.sum_range_succ, Finset.sum_range_succ, Finset.sum_range_succ,
      Finset.sum_range_zero, hA 0 (by norm_num), hA 1 (by norm_num), hA 2 (by norm_num),
      hA0, hA0, hA0]
    norm_num
  have hcode := dinActOutSlot_data (fun _ => cexAtt0) (fun _ => cexAtt1)
    cexXUB cexOutP cexOnes11 1 1 1 0 0 0 hxsh (by norm_num) h1
  have hspec := dinActOutSlotSpec_data (fun _ => cexAtt0) (fun _ => cexAtt1)
    cexXUB cexOutP cexOnes11 1 1 1 0 0 0 hxsh (by norm_num) h1
  norm_num [hd1, hd2, hd3, hXU] at hcode hspec
  have hcodesum : (∑ t ∈ Finset.range 36,
      (∑ u ∈ Finset.range 3,
        (dinActConcat (sliceMidT cexXUB 0) cexOutP cexOnes11).data u *
          cexAtt0.data (u * 36 + t)) * cexAtt1.data t) = 108 := by
    have hconst : ∀ t ∈ Finset.range 36,
        (∑ u ∈ Finset.range 3,
          (dinActConcat (sliceMidT cexXUB 0) cexOutP cexOnes11).data u *
            cexAtt0.data (u * 36 + t)) * cexAtt1.data t = 3 := by
      intro t _
      rw [hinner t, hA1 t]; norm_num
    rw [Finset.sum_congr rfl hconst, Finset.sum_const, Finset.card_range]
    norm_num
  have hspecsum : (∑ t ∈ Finset.range 36,
      max 0 (∑ u ∈ Finset.range 3,
        (dinActConcat (sliceMidT cexXUB 0) cexOutP cexOnes11).data u *
          cexAtt0.data (u * 36 + t)) * cexAtt1.data t) = 0 := by
    have hconst : ∀ t ∈ Finset.range 36,
        max 0 (∑ u ∈ Finset.range 3,
          (dinActConcat (sliceMidT cexXUB 0) cexOutP cexOnes11).data u *
            cexAtt0.data (u * 36 + t)) * cexAtt1.data t = 0 := by
      intro t _
      rw [hinner t, hA1 t]; norm_num
    rw [Finset.sum_congr rfl hconst, Finset.sum_const, Finset.card_range]
    norm_num
  rw [hcode, hspec, hcodesum, hspecsum]
  norm_num

/-- Identity of a learnable parameter node in the expression graph: the
names given by `G.WithName` in the constructors (`mlp0`, `mlp1`, `mlp2`,
`att0-i`, `att1-i`). -/
inductive PName where
  | mlp0 : PName
  | mlp1 : PName
  | mlp2 : PName
  | att0n : Nat → PName
  | att1n : Nat → PName
deriving DecidableEq

/-- A learnable parameter node: its graph name and its shape, as created by
`G.NewMatrix` / `G.NewTensor` in the constructors.  The Gaussian random
initial values play no role in any claim, so only name and shape are
modelled. -/
structure PNode where
  name : PName
  shape : List Nat
deriving DecidableEq

/-- The `SimpleMLP` struct of `din.go` lines 28–32 at graph level: the three
MLP weight nodes and the two dropout probabilities. -/
structure SimpleMLPG where
  mlp0 : PNode
  mlp1 : PNode
  mlp2 : PNode
  d0 : ℚ
  d1 : ℚ
deriving DecidableEq

/-- Embedding of `NewSimpleMLP` (`din.go` lines 34–49).  The Go function performs no
dimension check and cannot fail: it unconditionally builds the three MLP
weight matrices (the first of shape
`[uProfileDim + uBehaviorSize·uBehaviorDim + iFeatureDim + ctxFeatureDim, 200]`)
with dropout probabilities `0.01`.  A `log.Fatalf` abort would be modelled
as `Except.error`; none exists in this constructor. -/
def newSimpleMLP (uProfileDim uBehaviorSize uBehaviorDim iFeatureDim ctxFeatureDim : Nat) :
    Except String SimpleMLPG :=
  Except.ok
    { mlp0 := ⟨PName.mlp0,
        [uProfileDim + uBehaviorSize * uBehaviorDim + iFeatureDim + ctxFeatureDim, 200]⟩
      mlp1 := ⟨PName.mlp1, [200, 80]⟩
      mlp2 := ⟨PName.mlp2, [80, 1]⟩
      d0 := 1 / 100
      d1 := 1 / 100 }

/-- Embedding of `SimpleMLP.learnable` (`din.go` lines 55–57). -/
def SimpleMLPG.learnable (m : SimpleMLPG) : List PNode := [m.mlp0, m.mlp1, m.mlp2]

/-- The `DinNet` struct of `din.go` lines 76–87 at graph level. -/
structure DinNetG where
  uProfileDim : Nat
  uBehaviorSize : Nat
  uBehaviorDim : Nat
  iFeatureDim : Nat
  cFeatureDim : Nat
  mlp0 : PNode
  mlp1 : PNode
  mlp2 : PNode
  d0 : ℚ
  d1 : ℚ
  att0 : List PNode
  att1 : List PNode
deriving DecidableEq

/-- Embedding of `DinNet.learnable` (`din.go` lines 93–101): the three MLP nodes followed
by all `att0` nodes followed by all `att1` nodes. -/
def DinNetG.learnable (d : DinNetG) : List PNode := [d.mlp0, d.mlp1, d.mlp2] ++ d.att0 ++ d.att1

/-- The struct built by `NewDinNet` (`din.go` lines 111–145) once past the
dimension check: per-slot attention weight nodes `att0-i` of shape
`[uBehaviorDim + iFeatureDim + uBehaviorSize·uBehaviorDim·iFeatureDim, 36]`
and `att1-i` of shape `[36, 1]` for `i < uBehaviorSize`, MLP weights of
shapes `[uProfileDim + uBehaviorDim + iFeatureDim + ctxFeatureDim, 200]`,
`[200, 80]`, `[80, 1]`, dropout probabilities `0.001`. -/
def newDinNetPayload (uProfileDim uBehaviorSize uBehaviorDim iFeatureDim ctxFeatureDim : Nat) :
    DinNetG :=
  { uProfileDim := uProfileDim
    uBehaviorSize := uBehaviorSize
    uBehaviorDim := uBehaviorDim
    iFeatureDim := iFeatureDim
    cFeatureDim := ctxFeatureDim
    mlp0 := ⟨PName.mlp0, [uProfileDim + uBehaviorDim + iFeatureDim + ctxFeatureDim, 200]⟩
    mlp1 := ⟨PName.mlp1, [200, 80]⟩
    mlp2 := ⟨PName.mlp2, [80, 1]⟩
    d0 := 1 / 1000
    d1 := 1 / 1000
    att0 := (List.range uBehaviorSize).map (fun i =>
      ⟨PName.att0n i,
        [uBehaviorDim + iFeatureDim + uBehaviorSize * uBehaviorDim * iFeatureDim, 36]⟩)
    att1 := (List.range uBehaviorSize).map (fun i => ⟨PName.att1n i, [36, 1]⟩) }

/-- The error message of the `log.Fatalf` in `NewDinNet` (line 109) and of
the `errors.Errorf` in `DinNet.Fwd` (line 156). -/
def dinErrMsg (a b : Nat) : String :=
  "uBehaviorDim " ++ toString a ++ " != iFeatureDim " ++ toString b

/-- Embedding of `NewDinNet` (`din.go` lines 103–146): fatal (`log.Fatalf`, modelled as
`Except.error`) when `uBehaviorDim != iFeatureDim`, otherwise the
constructed net. -/
def newDinNet (uProfileDim uBehaviorSize uBehaviorDim iFeatureDim ctxFeatureDim : Nat) :
    Except String DinNetG :=
  if uBehaviorDim ≠ iFeatureDim then
    Except.error (dinErrMsg uBehaviorDim iFeatureDim)
  else
    Except.ok (newDinNetPayload uProfileDim uBehaviorSize uBehaviorDim iFeatureDim ctxFeatureDim)

/-- Returns `true` iff an `Except` value is a success (`nil` error in Go terms). -/
def isOkE {ε σ : Type} : Except ε σ → Bool
  | Except.ok _ => true
  | Except.error _ => false

/-- Claim C3 (counterexample): with behavior embedding dimension 8 and item
feature dimension 4 — a mismatch — the baseline constructor `NewSimpleMLP`
does NOT abort: it contains no dimension check at all and successfully
returns a model, so the claim that the baseline constructor path aborts
fatally on the mismatch is false. -/
theorem newSimpleMLP_no_fatal_cex : isOkE (newSimpleMLP 1 1 8 4 1) = true := rfl

/-- Claim C3 (amended): for every pair of dimensions with
`behaviorDim ≠ itemFeatureDim`, it is the DIN constructor `NewDinNet` that
fails fast (fatally, with the mismatch message), while the baseline
`NewSimpleMLP` constructor performs no dimension check and succeeds; no
silent shape coercion occurs — the given dimensions are used as-is in the
baseline's first-layer weight shape. -/
theorem model_construction_mismatch (P S bd ifd C : Nat) (h : bd ≠ ifd) :
    newDinNet P S bd ifd C = Except.error (dinErrMsg bd ifd) ∧
    isOkE (newSimpleMLP P S bd ifd C) = true ∧
    (∀ m, newSimpleMLP P S bd ifd C = Except.ok m →
      m.mlp0.shape = [P + S * bd + ifd + C, 200]) := by
  refine ⟨by simp [newDinNet, h], rfl, ?_⟩
  intro m hm
  simp only [newSimpleMLP, Except.ok.injEq] at hm
  rw [← hm]

/-- Witness for C3's amended theorem at `behaviorDim = 8`,
`itemFeatureDim = 4`. -/
theorem model_construction_mismatch_witness :
    newDinNet 1 1 8 4 1 = Except.error (dinErrMsg 8 4) ∧
    isOkE (newSimpleMLP 1 1 8 4 1) = true := by
  have h := model_construction_mismatch 1 1 8 4 1 (by decide)
  exact ⟨h.1, h.2.1⟩

/-- Value of `getD` on a mapped `List.range`, at an in-range index. -/
theorem getD_map_range {β : Type} (f : Nat → β) (S i : Nat) (d : β) (h : i < S) :
    ((List.range S).map f).getD i d = f i := by
  rw [List.getD_eq_getElem?_getD, List.getElem?_map, List.getElem?_range h]
  rfl

/-- Claim C10: for every `uBehaviorSize S`, `DinNet.learnable()` returns
exactly `3 + 2·S` parameter nodes in the fixed order `mlp0, mlp1, mlp2`,
then `att0[0..S)`, then `att1[0..S)` — one dedicated `(Att0[i], Att1[i])`
pair per behavior slot, each parameter appearing exactly once — while
`SimpleMLP.learnable()` always returns exactly the 3 nodes
`mlp0, mlp1, mlp2`. -/
theorem learnable_order (P S D C : Nat) :
    newDinNet P S D D C = Except.ok (newDinNetPayload P S D D C) ∧
    (newDinNetPayload P S D D C).learnable.length = 3 + 2 * S ∧
    ((newDinNetPayload P S D D C).learnable.getD 0 ⟨PName.mlp0, []⟩ =
        ⟨PName.mlp0, [P + D + D + C, 200]⟩ ∧
      (newDinNetPayload P S D D C).learnable.getD 1 ⟨PName.mlp0, []⟩ =
        ⟨PName.mlp1, [200, 80]⟩ ∧
      (newDinNetPayload P S D D C).learnable.getD 2 ⟨PName.mlp0, []⟩ =
        ⟨PName.mlp2, [80, 1]⟩) ∧
    (∀ i, i < S →
      (newDinNetPayload P S D D C).learnable.getD (3 + i) ⟨PName.mlp0, []⟩ =
        ⟨PName.att0n i, [D + D + S * D * D, 36]⟩ ∧
      (newDinNetPayload P S D D C).learnable.getD (3 + S + i) ⟨PName.mlp0, []⟩ =
        ⟨PName.att1n i, [36, 1]⟩) ∧
    (newDinNetPayload P S D D C).learnable.Nodup ∧
    (∀ P2 S2 D2 I2 C2 m, newSimpleMLP P2 S2 D2 I2 C2 = Except.ok m →
      m.learnable = [⟨PName.mlp0, [P2 + S2 * D2 + I2 + C2, 200]⟩,
        ⟨PName.mlp1, [200, 80]⟩, ⟨PName.mlp2, [80, 1]⟩]) := by
  have hL : (newDinNetPayload P S D D C).learnable =
      ⟨PName.mlp0, [P + D + D + C, 200]⟩ :: ⟨PName.mlp1, [200, 80]⟩ ::
        ⟨PName.mlp2, [80, 1]⟩ ::
        ((List.range S).map (fun i => (⟨PName.att0n i, [D + D + S * D * D, 36]⟩ : PNode)) ++
          (List.range S).map (fun i => (⟨PName.att1n i, [36, 1]⟩ : PNode))) := by
    simp [DinNetG.learnable, newDinNetPayload]
  refine ⟨by simp [newDinNet], ?_, ?_, ?_, ?_, ?_⟩
  · rw [hL]; simp; ring
  · rw [hL]
    exact ⟨rfl, rfl, rfl⟩
  · intro i hi
    rw [hL]
    constructor
    · have hidx : 3 + i = i + 1 + 1 + 1 := by omega
      rw [hidx]
      simp only [List.getD_cons_succ]
      rw [List.getD_append _ _ _ _ (by simpa using hi)]
      exact getD_map_range _ S i _ hi
    · have hidx : 3 + S + i = S + i + 1 + 1 + 1 := by omega
      rw [hidx]
      simp only [List.getD_cons_succ]
      rw [List.getD_append_right _ _ _ _ (by simp)]
      have hsub : S + i - ((List.range S).map
          (fun i => (⟨PName.att0n i, [D + D + S * D * D, 36]⟩ : PNode))).length = i := by
        simp
      rw [hsub]
      exact getD_map_range _ S i _ hi
  · rw [hL]
    refine List.Nodup.cons ?_ (List.Nodup.cons ?_ (List.Nodup.cons ?_ ?_))
    · simp [PNode.mk.injEq]
    · simp [PNode.mk.injEq]
    · simp [PNode.mk.injEq]
    · rw [List.nodup_append]
      refine ⟨?_, ?_, ?_⟩
      · exact List.Nodup.map (fun a b hab => by
          simpa [PNode.mk.injEq] using hab) (List.nodup_range S)
      · exact List.Nodup.map (fun a b hab => by
          simpa [PNode.mk.injEq] using hab) (List.nodup_range S)
      · intro a ha hb
        rcases List.mem_map.mp ha with ⟨i, _, rfl⟩
        rcases List.mem_map.mp hb with ⟨j, _, hj⟩
        simp [PNode.mk.injEq] at hj
  · intro P2 S2 D2 I2 C2 m hm
    simp only [newSimpleMLP, Except.ok.injEq] at hm
    rw [← hm]
    rfl

/-- Witness for C10 at `uBehaviorSize = 2`, slot `i = 1`. -/
theorem learnable_order_witness :
    (newDinNetPayload 1 2 3 3 1).learnable.getD 4 ⟨PName.mlp0, []⟩ =
      ⟨PName.att0n 1, [3 + 3 + 2 * 3 * 3, 36]⟩ ∧
    (newDinNetPayload 1 2 3 3 1).learnable.getD 6 ⟨PName.mlp0, []⟩ =
      ⟨PName.att1n 1, [36, 1]⟩ ∧
    (newDinNetPayload 1 2 3 3 1).learnable.length = 3 + 2 * 2 := by
  obtain ⟨-, hlen, -, hslot, -, -⟩ := learnable_order 1 2 3 1
  have h1 := hslot 1 (by decide)
  exact ⟨by simpa using h1.1, by simpa using h1.2, hlen⟩

/-- Embedding of `G.Sigmoid`: elementwise `1 / (1 + exp(-x))`. -/
noncomputable def sigmoidT (t : GTensor ℝ) : GTensor ℝ :=
  ⟨t.shape, fun k => 1 / (1 + Real.exp (-(t.data k)))⟩

/-- Embedding of `DinNet.Fwd` (`din.go` lines 158–214), the body after the dimension
check: reshape the behavior matrix to `[B, S, D]`, build the per-example
outer products, run the attention loop with sum pooling, concatenate
`[profile, actOuts, item, ctx]`, and apply the
`Linear → LeakyReLU(0.1) → Dropout(d0) → Linear → LeakyReLU(0.1) →
Dropout(d1) → Linear → Sigmoid` stack.  The weight values `mlp0 mlp1 mlp2`
and `att0 att1` are the values held by the graph's parameter nodes; `r0 r1`
are the dropout uniform random sources. -/
noncomputable def dinFwdCore (mlp0 mlp1 mlp2 : GTensor ℝ) (att0 att1 : Nat → GTensor ℝ)
    (d0 d1 : ℝ) (r0 r1 : Nat → ℝ)
    (xUserProfile ubMatrix xItemFeature xCtxFeature : GTensor ℝ)
    (batchSize uBehaviorSize uBehaviorDim : Nat) : GTensor ℝ :=
  let xUserBehaviors := reshapeT ubMatrix [batchSize, uBehaviorSize, uBehaviorDim]
  let outProducts := dinOutProducts ubMatrix xItemFeature batchSize uBehaviorSize uBehaviorDim
  let actOuts := dinActOuts att0 att1 xUserBehaviors outProducts xItemFeature
    batchSize uBehaviorDim uBehaviorSize
  let concat := hcat (hcat (hcat xUserProfile actOuts) xItemFeature) xCtxFeature
  let mlp0Out := dropoutT d0 r0 (leakyReluT (1 / 10) (matMulT concat mlp0))
  let mlp1Out := dropoutT d1 r1 (leakyReluT (1 / 10) (matMulT mlp0Out mlp1))
  sigmoidT (matMulT mlp1Out mlp2)

/-- Embedding of `DinNet.Fwd` (`din.go` lines 153–215) including the guard: the model's
`out` field (`prevOut` before the call) is only assigned after the whole
body runs; on a dimension mismatch the method returns the recoverable
`errors.Errorf` error before any tensor operation, leaving `out` unchanged.
`iFeatureDim` is read from the supplied item tensor's shape (line 154). -/
noncomputable def dinFwdRun (prevOut : Option (GTensor ℝ))
    (mlp0 mlp1 mlp2 : GTensor ℝ) (att0 att1 : Nat → GTensor ℝ)
    (d0 d1 : ℝ) (r0 r1 : Nat → ℝ)
    (xUserProfile ubMatrix xItemFeature xCtxFeature : GTensor ℝ)
    (batchSize uBehaviorSize uBehaviorDim : Nat) :
    Option (GTensor ℝ) × Except String Unit :=
  if uBehaviorDim ≠ dimAt xItemFeature 1 then
    (prevOut, Except.error (dinErrMsg uBehaviorDim (dimAt xItemFeature 1)))
  else
    (some (dinFwdCore mlp0 mlp1 mlp2 att0 att1 d0 d1 r0 r1
      xUserProfile ubMatrix xItemFeature xCtxFeature batchSize uBehaviorSize uBehaviorDim),
     Except.ok ())

/-- Embedding of `SimpleMLP.Fwd` (`din.go` lines 59–74): reshape the behavior matrix to
`[B, S·D]`, concatenate `[profile, behaviors, item, ctx]`, and apply the
same MLP stack; it cannot fail. -/
noncomputable def simpleMLPFwd (mlp0 mlp1 mlp2 : GTensor ℝ)
    (d0 d1 : ℝ) (r0 r1 : Nat → ℝ)
    (xUserProfile ubMatrix xItemFeature xCtxFeature : GTensor ℝ)
    (batchSize uBehaviorSize uBehaviorDim : Nat) : GTensor ℝ :=
  let ub := reshapeT ubMatrix [batchSize, uBehaviorSize * uBehaviorDim]
  let x := hcat (hcat (hcat xUserProfile ub) xItemFeature) xCtxFeature
  let mlp0Out := dropoutT d0 r0 (leakyReluT (1 / 10) (matMulT x mlp0))
  let mlp1Out := dropoutT d1 r1 (leakyReluT (1 / 10) (matMulT mlp0Out mlp1))
  sigmoidT (matMulT mlp1Out mlp2)

/-- Claim C4: for every call of the DIN forward pass in which
`uBehaviorDim` differs from the item feature dimension read from the
supplied item tensor, `Fwd` returns the recoverable `errors.Errorf` error
(not a fatal abort) before any tensor operation, and the model's output
stays whatever it was before the call (unset). -/
theorem dinFwdRun_mismatch (prevOut : Option (GTensor ℝ))
    (mlp0 mlp1 mlp2 : GTensor ℝ) (att0 att1 : Nat → GTensor ℝ)
    (d0 d1 : ℝ) (r0 r1 : Nat → ℝ)
    (xUserProfile ubMatrix xItemFeature xCtxFeature : GTensor ℝ)
    (batchSize uBehaviorSize uBehaviorDim : Nat)
    (h : uBehaviorDim ≠ dimAt xItemFeature 1) :
    dinFwdRun prevOut mlp0 mlp1 mlp2 att0 att1 d0 d1 r0 r1
        xUserProfile ubMatrix xItemFeature xCtxFeature
        batchSize uBehaviorSize uBehaviorDim =
      (prevOut, Except.error (dinErrMsg uBehaviorDim (dimAt xItemFeature 1))) := by
  simp [dinFwdRun, h]

/-- Witness for C4: `uBehaviorDim = 1` against an item tensor of feature
dimension 2. -/
theorem dinFwdRun_mismatch_witness :
    dinFwdRun none (zerosT []) (zerosT []) (zerosT [])
        (fun _ => zerosT []) (fun _ => zerosT []) 0 0 (fun _ => 0) (fun _ => 0)
        (zerosT []) (zerosT []) (zerosT [1, 2]) (zerosT []) 1 1 1 =
      (none, Except.error (dinErrMsg 1 (dimAt (zerosT [1, 2] : GTensor ℝ) 1))) :=
  dinFwdRun_mismatch none (zerosT []) (zerosT []) (zerosT [])
    (fun _ => zerosT []) (fun _ => zerosT []) 0 0 (fun _ => 0) (fun _ => 0)
    (zerosT []) (zerosT []) (zerosT [1, 2]) (zerosT []) 1 1 1 (by decide)

/-- The logistic sigmoid maps every real strictly inside `(0, 1)`. -/
theorem sigmoid_mem_Ioo (x : ℝ) :
    0 < 1 / (1 + Real.exp (-x)) ∧ 1 / (1 + Real.exp (-x)) < 1 := by
  have h1 : 0 < Real.exp (-x) := Real.exp_pos _
  constructor
  · positivity
  · rw [div_lt_one (by linarith)]
    linarith

/-- Claim C7: for every (finite-valued, which is all of ℝ) input batch,
parameter setting, and dropout randomness, every entry of the forward-pass
output of either model variant — the final sigmoid — lies strictly within
the open interval `(0, 1)`. -/
theorem fwd_output_in_open_unit_interval (mlp0 mlp1 mlp2 : GTensor ℝ)
    (att0 att1 : Nat → GTensor ℝ) (d0 d1 : ℝ) (r0 r1 : Nat → ℝ)
    (xUserProfile ubMatrix xItemFeature xCtxFeature : GTensor ℝ)
    (batchSize uBehaviorSize uBehaviorDim k : Nat) :
    (0 < (dinFwdCore mlp0 mlp1 mlp2 att0 att1 d0 d1 r0 r1
        xUserProfile ubMatrix xItemFeature xCtxFeature
        batchSize uBehaviorSize uBehaviorDim).data k ∧
      (dinFwdCore mlp0 mlp1 mlp2 att0 att1 d0 d1 r0 r1
        xUserProfile ubMatrix xItemFeature xCtxFeature
        batchSize uBehaviorSize uBehaviorDim).data k < 1) ∧
    (0 < (simpleMLPFwd mlp0 mlp1 mlp2 d0 d1 r0 r1
        xUserProfile ubMatrix xItemFeature xCtxFeature
        batchSize uBehaviorSize uBehaviorDim).data k ∧
      (simpleMLPFwd mlp0 mlp1 mlp2 d0 d1 r0 r1
        xUserProfile ubMatrix xItemFeature xCtxFeature
        batchSize uBehaviorSize uBehaviorDim).data k < 1) := by
  constructor
  · simp only [dinFwdCore, sigmoidT]
    exact sigmoid_mem_Ioo _
  · simp only [simpleMLPFwd, sigmoidT]
    exact sigmoid_mem_Ioo _

/-- Claim C9: dropout is inactive when disabled — the dropout op with
probability 0 is the identity regardless of the random source — and with
dropout disabled, running the forward pass twice on identical inputs with
identical parameters but arbitrary (different) dropout randomness yields
identical outputs, for both model variants.  (The code has no separate
evaluation-mode flag: disabling dropout means probability 0.) -/
theorem fwd_deterministic_without_dropout (mlp0 mlp1 mlp2 : GTensor ℝ)
    (att0 att1 : Nat → GTensor ℝ) (ra0 ra1 rb0 rb1 : Nat → ℝ)
    (xUserProfile ubMatrix xItemFeature xCtxFeature : GTensor ℝ)
    (batchSize uBehaviorSize uBehaviorDim : Nat) :
    (∀ (r : Nat → ℝ) (t : GTensor ℝ), dropoutT 0 r t = t) ∧
    dinFwdCore mlp0 mlp1 mlp2 att0 att1 0 0 ra0 ra1
        xUserProfile ubMatrix xItemFeature xCtxFeature
        batchSize uBehaviorSize uBehaviorDim =
      dinFwdCore mlp0 mlp1 mlp2 att0 att1 0 0 rb0 rb1
        xUserProfile ubMatrix xItemFeature xCtxFeature
        batchSize uBehaviorSize uBehaviorDim ∧
    simpleMLPFwd mlp0 mlp1 mlp2 0 0 ra0 ra1
        xUserProfile ubMatrix xItemFeature xCtxFeature
        batchSize uBehaviorSize uBehaviorDim =
      simpleMLPFwd mlp0 mlp1 mlp2 0 0 rb0 rb1
        xUserProfile ubMatrix xItemFeature xCtxFeature
        batchSize uBehaviorSize uBehaviorDim := by
  have hdrop : ∀ (r : Nat → ℝ) (t : GTensor ℝ), dropoutT 0 r t = t := by
    intro r t
    simp [dropoutT]
  refine ⟨hdrop, ?_, ?_⟩
  · simp only [dinFwdCore, hdrop]
  · simp only [simpleMLPFwd, hdrop]

/-- The `rcmd.SampleInfo` column ranges used by `Train`: start/end column of
the user-profile, user-behavior, item-feature and context-feature groups. -/
structure SampleInfo where
  upStart : Nat
  upEnd : Nat
  ubStart : Nat
  ubEnd : Nat
  ifStart : Nat
  ifEnd : Nat
  cfStart : Nat
  cfEnd : Nat
deriving DecidableEq

/-- Observable steps of the training loop body (`din.go` lines 287–356):
binding a sliced feature range (rows `[rowStart, rowEnd)`, columns
`[colStart, colEnd)`) to a named placeholder, binding the sliced label rows,
executing the compiled graph (`vm.RunAll`), the optimizer step over the
parameter-to-gradient pairs (`solver.Step(G.NodesToValueGrads(m.learnable()))`),
and resetting the tape machine (`vm.Reset`). -/
inductive TrainEvent where
  | letBind : String → Nat → Nat → Nat → Nat → TrainEvent
  | letBindY : Nat → Nat → TrainEvent
  | runAll : TrainEvent
  | solverStep : List PNode → TrainEvent
  | reset : TrainEvent
deriving DecidableEq

/-- One iteration of the batch loop (`din.go` lines 301–351): slice and bind
the four feature ranges and the label for rows `[start, fin)`, run the
graph, step the optimizer, reset. -/
def batchBody (si : SampleInfo) (ps : List PNode) (start fin : Nat) : List TrainEvent :=
  [TrainEvent.letBind "xUserProfile" start fin si.upStart si.upEnd,
   TrainEvent.letBind "xUserBehaviorMatrix" start fin si.ubStart si.ubEnd,
   TrainEvent.letBind "xItemFeature" start fin si.ifStart si.ifEnd,
   TrainEvent.letBind "xCtxFeature" start fin si.cfStart si.cfEnd,
   TrainEvent.letBindY start fin,
   TrainEvent.runAll,
   TrainEvent.solverStep ps,
   TrainEvent.reset]

/-- The batch loop `for b := 0; b < batches; b++` of `din.go` lines 291–352,
with its `if start >= numExamples break` and the clamp
`if end > numExamples then end = numExamples` (lines 292–299); `rem` is the
number of remaining iterations, `b` the current batch index. -/
def batchLoop (si : SampleInfo) (ps : List PNode) (N B : Nat) : Nat → Nat → List TrainEvent
  | 0, _ => []
  | rem + 1, b =>
    if N ≤ b * B then []
    else batchBody si ps (b * B) (min (b * B + B) N) ++ batchLoop si ps N B rem (b + 1)

/-- The full trace of `Train`'s epoch loop (`din.go` lines 281–356):
`batches := numExamples / batchSize` computed once, then `epochs` passes of
the batch loop. -/
def trainTrace (epochs N B : Nat) (si : SampleInfo) (ps : List PNode) : List TrainEvent :=
  ((List.range epochs).map (fun _ => batchLoop si ps N B (N / B) 0)).flatten

/-- The loss of `din.go` lines 239–240:
`cost = Mean(Square(Sub(out, y)))`. -/
def lossCost (out y : GTensor α) : GTensor α := meanT (squareT (subT out y))

/-- Claim C6: for every run with `N` examples, batch size `B > 0` and `E`
epochs, the training loop executes exactly `E` epochs of exactly
`floor(N/B)` batches each — the break/clamp guards never fire, so there is
no early stopping — and each batch consists of binding the four sliced
feature ranges and the label for rows `[b·B, b·B + B)`, one graph
execution, one optimizer step over the learnable parameters, and one reset;
the minimized cost is the mean squared error between prediction and
label. -/
theorem train_loop_structure (E N B : Nat) (si : SampleInfo) (ps : List PNode)
    (hB : 0 < B) :
    trainTrace E N B si ps =
      ((List.range E).map (fun _ =>
        ((List.range (N / B)).map (fun b =>
          batchBody si ps (b * B) (b * B + B))).flatten)).flatten ∧
    (∀ (out y : GTensor α), out.shape = [B, 1] → y.shape = [B, 1] →
      (lossCost out y).data 0 =
        (∑ i ∈ Finset.range B,
          (out.data i - y.data i) * (out.data i - y.data i)) / (B : α)) := by
  constructor
  · have hloop : ∀ rem b, (b + rem) * B ≤ N →
        batchLoop si ps N B rem b =
          ((List.range rem).map (fun t =>
            batchBody si ps ((b + t) * B) ((b + t) * B + B))).flatten := by
      intro rem
      induction rem with
      | zero => intro b _; simp [batchLoop]
      | succ rem ih =>
        intro b h
        have hend : b * B + B ≤ N := by
          have h1 : (b + 1) * B ≤ (b + (rem + 1)) * B :=
            Nat.mul_le_mul_right _ (by omega)
          have h2 : (b + 1) * B = b * B + B := by ring
          omega
        have hstart : ¬ N ≤ b * B := by omega
        rw [batchLoop, if_neg hstart, Nat.min_eq_left hend,
          ih (b + 1) (by rw [show b + 1 + rem = b + (rem + 1) by omega]; exact h)]
        rw [List.range_succ_eq_map]
        simp only [List.map_cons, List.flatten, List.map_map, Nat.add_zero]
        congr 1
        congr 1
        refine List.map_congr_left (fun t _ => ?_)
        have harg : b + 1 + t = b + (t + 1) := by omega
        simp only [Function.comp_apply, Nat.succ_eq_add_one, harg]
    have hmain := hloop (N / B) 0 (by simpa using Nat.div_mul_le_self N B)
    rw [trainTrace, hmain]
    simp only [Nat.zero_add]
  · intro out y hout hy
    simp only [lossCost, meanT, squareT, subT, GTensor.size, hout]
    norm_num

/-- Witness for C6: one epoch over `N = 2` examples with batch size 1 gives
exactly the two batch bodies, and the cost of a concrete `B = 1` batch is
the mean squared error. -/
theorem train_loop_structure_witness :
    trainTrace 1 2 1 ⟨0, 1, 1, 2, 2, 3, 3, 4⟩ [] =
      batchBody ⟨0, 1, 1, 2, 2, 3, 3, 4⟩ [] 0 1 ++
        batchBody ⟨0, 1, 1, 2, 2, 3, 3, 4⟩ [] 1 2 ∧
    (lossCost (⟨[1, 1], fun _ => 1⟩ : GTensor ℚ) ⟨[1, 1], fun _ => 0⟩).data 0 = 1 := by
  have h := @train_loop_structure ℚ _ 1 2 1 ⟨0, 1, 1, 2, 2, 3, 3, 4⟩ [] (by decide)
  constructor
  · have h1 := h.1
    simpa [List.range_succ] using h1
  · have h2 := h.2 ⟨[1, 1], fun _ => 1⟩ ⟨[1, 1], fun _ => 0⟩ rfl rfl
    simpa using h2

/-- Go's `math.Round`: round half away from zero, as an integer result. -/
def goRound (q : ℚ) : ℤ := if q < 0 then -⌊-q + 1 / 2⌋ else ⌊q + 1 / 2⌋

/-- Embedding of `accuracy` (`din.go` lines 381–389): loop `i` over the prediction
indices, count the indices with `math.Round(prediction[i] - y[i]) == 0`,
and divide the count by `len(y)`. -/
def accuracy (p y : List ℚ) : ℚ :=
  (List.foldl (fun ok i => if goRound (p.getD i 0 - y.getD i 0) = 0 then ok + 1 else ok)
    (0 : ℚ) (List.range p.length)) / (y.length : ℚ)

/-- A conditional-increment fold counts exactly the filtered elements. -/
theorem foldl_count_eq_filter (P : Nat → Prop) [DecidablePred P] (l : List Nat) (c : ℚ) :
    List.foldl (fun ok i => if P i then ok + 1 else ok) c l =
      c + ((l.filter (fun i => decide (P i))).length : ℚ) := by
  induction l generalizing c with
  | nil => simp
  | cons a l ih =>
    by_cases h : P a
    · rw [List.foldl_cons, if_pos h, ih (c + 1), List.filter_cons,
        if_pos (by simpa using h)]
      simp only [List.length_cons]
      push_cast
      ring
    · rw [List.foldl_cons, if_neg h, ih c, List.filter_cons,
        if_neg (by simpa using h)]

/-- Claim C8: the accuracy metric returns the fraction of indices `i` with
`round(prediction[i] - label[i]) == 0`; in particular
`accuracy([0.6, 0.4], [1, 0]) = 1` and `accuracy([0.4, 0.4], [1, 0]) = 0.5`. -/
theorem accuracy_round_fraction :
    (∀ p y : List ℚ, p.length = y.length →
      accuracy p y =
        (((List.range p.length).filter
          (fun i => decide (goRound (p.getD i 0 - y.getD i 0) = 0))).length : ℚ) /
          (p.length : ℚ)) ∧
    accuracy [3 / 5, 2 / 5] [1, 0] = 1 ∧
    accuracy [2 / 5, 2 / 5] [1, 0] = 1 / 2 := by
  refine ⟨?_, ?_, ?_⟩
  · intro p y hlen
    rw [accuracy, foldl_count_eq_filter (fun i => goRound (p.getD i 0 - y.getD i 0) = 0),
      ← hlen]
    norm_num
  · norm_num [accuracy, goRound, List.range_succ]
  · norm_num [accuracy, goRound, List.range_succ]

/-- Witness for C1's amended theorem at the concrete `B = S = D = 1` input. -/
theorem din_attention_unit_score_witness :
    (dinActOutSlot (fun _ => cexAtt0) (fun _ => cexAtt1)
        cexXUB cexOutP cexOnes11 0).data (0 * 1 + 0) =
      cexXUB.data (0 * (1 * 1) + 0 * 1 + 0) *
        max 0 (∑ t ∈ Finset.range (dimAt ((fun _ => cexAtt0) 0) 1),
          (∑ u ∈ Finset.range (1 + dimAt cexOutP 1 + dimAt cexOnes11 1),
            (dinActConcat (sliceMidT cexXUB 0) cexOutP cexOnes11).data
                (0 * (1 + dimAt cexOutP 1 + dimAt cexOnes11 1) + u) *
              ((fun _ => cexAtt0) 0).data (u * dimAt ((fun _ => cexAtt0) 0) 1 + t)) *
          ((fun _ => cexAtt1) 0).data t) :=
  din_attention_unit_score (fun _ => cexAtt0) (fun _ => cexAtt1)
    cexXUB cexOutP cexOnes11 1 1 1 0 0 0 rfl (by decide) rfl

/-- Witness for C2 at the concrete `[1, 2] ⊗ [3, 4]` input, entry `k = 3`. -/
theorem dinOutProducts_kron_witness :
    (dinOutProducts (⟨[1, 2], fun n => [(1 : ℚ), 2].getD n 0⟩)
        (⟨[1, 2], fun n => [(3 : ℚ), 4].getD n 0⟩) 1 1 2).data (0 * (1 * 2 * 2) + 3) =
      (⟨[1, 2], fun n => [(1 : ℚ), 2].getD n 0⟩ : GTensor ℚ).data (0 * (1 * 2) + 3 / 2) *
        (⟨[1, 2], fun n => [(3 : ℚ), 4].getD n 0⟩ : GTensor ℚ).data (0 * 2 + 3 % 2) :=
  (@dinOutProducts_kron ℚ _).1 ⟨[1, 2], fun n => [(1 : ℚ), 2].getD n 0⟩
    ⟨[1, 2], fun n => [(3 : ℚ), 4].getD n 0⟩ 1 1 2 2 0 3 rfl rfl (by decide) (by decide)

/-- Witness for C8's fraction characterization at `p = [0.6, 0.4]`,
`y = [1, 0]`. -/
theorem accuracy_round_fraction_witness :
    accuracy [3 / 5, 2 / 5] [1, 0] =
      (((List.range ([(3 : ℚ) / 5, 2 / 5].length)).filter
        (fun i => decide (goRound ([(3 : ℚ) / 5, 2 / 5].getD i 0 -
          [(1 : ℚ), 0].getD i 0) = 0))).length : ℚ) /
        (([(3 : ℚ) / 5, 2 / 5].length : ℚ)) :=
  accuracy_round_fraction.1 [3 / 5, 2 / 5] [1, 0] rfl
